import Mathlib

/-!
Verification of the resy reservation tool core: a shallow embedding of the
slot matcher (`filterSlotsByTime`, `filterSlotsByTableType`, `normalizeTime`),
the booking orchestrator (`ResyScheduler.snipe`), the one-shot book command,
the booking client (`bookReservation` / `getBookingDetails`) and the time
scheduler (`scheduleAtTime`), together with theorems settling the spec claims.

Conventions of the embedding:
* JavaScript numbers that can be `NaN` are modelled as `Option Int`
  (`none` = `NaN`); thrown exceptions are modelled with `Except`.
* JavaScript truthiness (`x || y` with `0`, `""`, `undefined` falsy) is
  modelled explicitly by the `jsOr...` helpers.
* Provider (network) behaviour is a parameter; every provider call performed
  by the orchestrator is recorded in an event trace, so that "this call is
  never made" claims are statements about the trace.
-/

/-! ## Data model (src/types.ts) -/

/-- `AvailableSlot` from src/types.ts (internal candidate-slot record). -/
structure AvailableSlot where
  venueId : Nat
  venueName : String
  date : String
  time : String
  configId : Nat
  token : String
  partySize : Nat
  type : String
  deposit : Option Int
  tableType : Option String
  quantity : Int
deriving DecidableEq, Repr

/-- `VenueConfig` from src/types.ts (one polling Target). -/
structure VenueConfig where
  id : Nat
  name : String
  date : String
  partySize : Option Nat
  preferredTimes : Option (List String)
  preferredTableTypes : Option (List String)
deriving DecidableEq, Repr

/-- `BookingResult` from src/types.ts. -/
structure BookingResult where
  success : Bool
  reservationId : Option Nat
  venueName : Option String
  date : Option String
  time : Option String
  partySize : Option Nat
  error : Option String
deriving DecidableEq, Repr

/-! ## JavaScript string / number helpers used by the embedding -/

/-- The ASCII characters matched by the JavaScript `\s` class
(space, tab, newline, carriage return, vertical tab, form feed). -/
def isJsSpace (c : Char) : Bool :=
  c = ' ' || c = '\t' || c = '\n' || c = '\r' || c = '\x0b' || c = '\x0c'

/-- Numeric value of a decimal digit character. -/
def digitVal (c : Char) : Nat := c.toNat - 48

/-- Accumulate the leading decimal digits, as `parseInt(_, 10)` does after
its initial checks (it stops at the first non-digit). -/
def jsParseDigits : Nat → List Char → Nat
  | acc, [] => acc
  | acc, c :: cs => if c.isDigit then jsParseDigits (acc * 10 + digitVal c) cs else acc

/-- `parseInt(s, 10)` after whitespace trimming: an optional sign followed by
at least one digit; otherwise `NaN` (modelled as `none`). -/
def jsParseIntCore : List Char → Option Int
  | [] => none
  | '-' :: rest =>
    match rest with
    | c :: _ => if c.isDigit then some (-(jsParseDigits 0 rest : Int)) else none
    | [] => none
  | '+' :: rest =>
    match rest with
    | c :: _ => if c.isDigit then some ((jsParseDigits 0 rest : Int)) else none
    | [] => none
  | c :: cs => if c.isDigit then some ((jsParseDigits 0 (c :: cs) : Int)) else none

/-- JavaScript `parseInt(s, 10)`: trims leading whitespace, then parses an
optionally signed run of digits; `NaN` is `none`. -/
def jsParseInt (cs : List Char) : Option Int :=
  jsParseIntCore (cs.dropWhile isJsSpace)

/-- JavaScript `String.prototype.split(':')` on a list of characters. -/
def splitOnColon : List Char → List (List Char)
  | [] => [[]]
  | c :: cs =>
    if c = ':' then [] :: splitOnColon cs
    else
      match splitOnColon cs with
      | [] => [[c]]
      | p :: ps => (c :: p) :: ps

/-- Does `text` start with `pat`? -/
def beginsWith : List Char → List Char → Bool
  | [], _ => true
  | _ :: _, [] => false
  | p :: ps, c :: cs => p = c && beginsWith ps cs

/-- JavaScript `String.prototype.includes`: substring search. -/
def containsSeq (pat : List Char) : List Char → Bool
  | [] => beginsWith pat []
  | c :: cs => beginsWith pat (c :: cs) || containsSeq pat cs

/-! ## The regex `/(\d{1,2}):?(\d{2})?(am|pm)/` of `normalizeTime`

A hand-rolled matcher for exactly this pattern: leftmost match position,
greedy quantifiers with backtracking, exactly as the JavaScript engine
resolves them.  A successful match yields
(hours value, optional minutes value, `true` iff the meridiem is `pm`). -/

/-- Match the trailing alternative `(am|pm)` at the current position. -/
def matchMeridiem : List Char → Option Bool
  | 'a' :: 'm' :: _ => some false
  | 'p' :: 'm' :: _ => some true
  | _ => none

/-- Match `(\d{2})?(am|pm)`: the minutes group is greedy, backtracking to
absence when the meridiem cannot follow. -/
def matchMinutesPart (cs : List Char) : Option (Option Nat × Bool) :=
  (match cs with
   | c1 :: c2 :: rest =>
     if c1.isDigit && c2.isDigit then
       (matchMeridiem rest).map (fun mer => (some (10 * digitVal c1 + digitVal c2), mer))
     else none
   | _ => none)
  <|> (matchMeridiem cs).map (fun mer => ((none : Option Nat), mer))

/-- Match `:?(\d{2})?(am|pm)`: the optional colon is greedy with backtracking. -/
def matchColonPart (cs : List Char) : Option (Option Nat × Bool) :=
  (match cs with
   | ':' :: rest => matchMinutesPart rest
   | _ => none)
  <|> matchMinutesPart cs

/-- Match the whole pattern at the current position: `\d{1,2}` is greedy
(two digits preferred, backtracking to one). -/
def matchTimeAt : List Char → Option (Nat × Option Nat × Bool)
  | [] => none
  | c1 :: rest =>
    if c1.isDigit then
      (match rest with
       | c2 :: rest2 =>
         if c2.isDigit then
           (matchColonPart rest2).map (fun r => (10 * digitVal c1 + digitVal c2, r.1, r.2))
         else none
       | [] => none)
      <|> (matchColonPart rest).map (fun r => (digitVal c1, r.1, r.2))
    else none

/-- `String.prototype.match`: try the pattern at each position from the left,
returning the first (leftmost) match. -/
def searchTimePattern : List Char → Option (Nat × Option Nat × Bool)
  | [] => none
  | c :: cs => matchTimeAt (c :: cs) <|> searchTimePattern cs

/-! ## `ResyClient.normalizeTime` (src/resy-client.ts lines 308-331) -/

/-- `normalizeTime` on a character list: convert a time string to minutes
since midnight.  `none` models a `NaN` result (a failed `parseInt` in the
24-hour branch); note the am/pm branch returns `0` — not `NaN` — when the
regex fails, exactly as the source does. -/
def normalizeTimeL (time : List Char) : Option Int :=
  let cleaned := (time.map Char.toLower).filter (fun c => !isJsSpace c)
  if containsSeq ['a', 'm'] cleaned || containsSeq ['p', 'm'] cleaned then
    match searchTimePattern cleaned with
    | some (h, m?, isPm) =>
      let hours0 := h
      let minutes := m?.getD 0
      let hours1 := if isPm && hours0 ≠ 12 then hours0 + 12 else hours0
      let hours2 := if !isPm && hours1 = 12 then 0 else hours1
      some ((hours2 : Int) * 60 + (minutes : Int))
    | none => some 0
  else
    let parts := splitOnColon time
    let p0 := parts.headD []
    let p1 := match parts with
      | _ :: p :: _ => if p = [] then ['0'] else p
      | _ => ['0']
    match jsParseInt p0, jsParseInt p1 with
    | some h, some m => some (h * 60 + m)
    | _, _ => none

/-- `ResyClient.normalizeTime`: minutes since midnight (`none` = `NaN`). -/
def normalizeTime (time : String) : Option Int := normalizeTimeL time.data

/-! ## `ResyClient.filterSlotsByTime` (src/resy-client.ts lines 276-306) -/

/-- Binary `Math.min` with `NaN` (= `none`) poisoning, as in JavaScript. -/
def optMin : Option Int → Option Int → Option Int
  | none, _ => none
  | _, none => none
  | some a, some b => some (min a b)

/-- `Math.min(...list)` over a non-empty spread; `NaN` anywhere gives `NaN`.
The `[]` case is unreachable in the source (the preferred-times list is
checked non-empty first); JavaScript would give `Infinity` there. -/
def jsMinList : List (Option Int) → Option Int
  | [] => none
  | x :: xs => xs.foldl optMin x

/-- The minimum absolute distance (in minutes) from a slot's display time to
any normalized preferred time, as computed inside `filterSlotsByTime`. -/
def slotDistance (normalizedPreferred : List (Option Int)) (slot : AvailableSlot) :
    Option Int :=
  match normalizeTime slot.time with
  | none => none
  | some t => jsMinList (normalizedPreferred.map (fun p => p.map (fun q => ((t - q).natAbs : Int))))

/-- The 15-minute tolerance test `distance <= 15`; `NaN <= 15` is false. -/
def distLe15 : Option Int → Bool
  | some d => d ≤ 15
  | none => false

/-- The sort comparator `(a, b) => a.distance - b.distance` as a boolean
"should `x` come no later than `y`" relation.  The `none` cases are
unreachable: every pair surviving the `<= 15` filter has a `some` distance. -/
def distLeB : Option Int → Option Int → Bool
  | some a, some b => a ≤ b
  | none, _ => true
  | some _, none => true

/-- Stable insertion of one `(slot, distance)` pair: the new element goes
before the first element it is `≤`, hence after all earlier-ranked and all
tied elements already in place. -/
def insertPair (x : AvailableSlot × Option Int) :
    List (AvailableSlot × Option Int) → List (AvailableSlot × Option Int)
  | [] => [x]
  | y :: ys => if distLeB x.2 y.2 then x :: y :: ys else y :: insertPair x ys

/-- A stable sort by distance — the result JavaScript's (specified-stable)
`Array.prototype.sort` produces for the comparator above. -/
def sortPairs : List (AvailableSlot × Option Int) → List (AvailableSlot × Option Int)
  | [] => []
  | x :: xs => insertPair x (sortPairs xs)

/-- `ResyClient.filterSlotsByTime`: with no preferred times the slots pass
through unchanged; otherwise each slot is paired with its minimum distance
to a preferred time, pairs farther than 15 minutes are dropped, the
survivors are stably sorted by distance, and the slots are projected out. -/
def filterSlotsByTime (slots : List AvailableSlot) (preferredTimes : Option (List String)) :
    List AvailableSlot :=
  match preferredTimes with
  | none => slots
  | some prefs =>
    if prefs = [] then slots
    else
      let normalizedPreferred := prefs.map normalizeTime
      let slotsWithDistance :=
        (slots.map (fun slot => (slot, slotDistance normalizedPreferred slot))).filter
          (fun sd => distLe15 sd.2)
      (sortPairs slotsWithDistance).map Prod.fst

/-! ## `ResyClient.filterSlotsByTableType`

Modelled from the spec: `filterSlotsByTableType` is called from
src/scheduler.ts line 73 and src/index.ts lines 134, 149 and 211, but its
definition is not among the files under src/.  Spec §4.3: "Category filter:
keeps only candidates whose type label is in the requested set; if the
requested set is empty/absent, passes all candidates unchanged." -/
def filterSlotsByTableType (slots : List AvailableSlot)
    (tableTypes : Option (List String)) : List AvailableSlot :=
  match tableTypes with
  | none => slots
  | some ts => if ts = [] then slots else slots.filter (fun s => ts.contains s.type)


/-! ## JavaScript truthiness helpers -/

/-- `a || b` for an optional number where `0` is falsy (JavaScript). -/
def jsOrNat (a : Option Nat) (b : Nat) : Nat :=
  match a with
  | some x => if x = 0 then b else x
  | none => b

/-- `a || b` for an optional string where `""` is falsy (JavaScript). -/
def jsOrStr (a : Option String) (b : Option String) : Option String :=
  match a with
  | some s => if s = "" then b else some s
  | none => b

/-! ## The booking orchestrator (`ResyScheduler.snipe`, src/scheduler.ts)

The provider is abstract: `find` models `ResyClient.findAvailableSlots`
(an `Except.error` models the `Failed to authenticate` throw, which the
per-venue `try/catch` turns into a skip) and `book` models
`ResyClient.bookReservation`, which always returns a `BookingResult`
(claim C10).  Both may depend on the attempt number, so a provider can
behave differently from cycle to cycle.  Every provider call and every
"slot found" report is recorded as an event. -/

/-- A thrown JavaScript error: its own `message` and, when the error carries
an HTTP response, the provider's `response.data.message`. -/
structure JsError where
  message : String
  providerMessage : Option String
deriving DecidableEq, Repr

/-- `error.response?.data?.message || error.message` — the reported text
(an empty provider message is falsy and falls back, as in JavaScript). -/
def jsErrorText (e : JsError) : String :=
  match e.providerMessage with
  | some m => if m = "" then e.message else m
  | none => e.message

/-- The availability provider as seen by the orchestrator: both operations
take the attempt number first, so behaviour may vary between poll cycles.
`find attempt venueId date partySize` and `book attempt slot`. -/
structure Provider where
  find : Nat → Nat → String → Nat → Except JsError (List AvailableSlot)
  book : Nat → AvailableSlot → BookingResult

/-- `SnipeOptions` from src/scheduler.ts (callbacks are modelled as trace
events; the interval only affects timing, which the model abstracts). -/
structure SnipeOptions where
  intervalSeconds : Nat
  maxAttempts : Option Nat
  dryRun : Bool
deriving DecidableEq, Repr

/-- Observable events of a run: provider calls and candidate reports. -/
inductive REvent where
  | findCall (venueId : Nat) (attempt : Nat)
  | slotFound (slot : AvailableSlot)
  | bookCall (slot : AvailableSlot)
deriving DecidableEq, Repr

/-- Is this event a call to the commit capability (`bookReservation`)? -/
def REvent.isBookCall : REvent → Bool
  | .bookCall _ => true
  | _ => false

/-- The candidate-selection part of one venue's handling inside
`checkAndBook` (src/scheduler.ts lines 55-88): fetch, require a non-empty
result, category filter, time filter, take the top-ranked candidate.
`none` covers every `continue` path (including a caught throw). -/
def cycleSelect (p : Provider) (attempt : Nat) (defaultPartySize : Nat)
    (globalTimes globalTables : Option (List String)) (v : VenueConfig) :
    Option AvailableSlot :=
  let partySize := jsOrNat v.partySize defaultPartySize
  let times := v.preferredTimes <|> globalTimes
  let tableTypes := v.preferredTableTypes <|> globalTables
  match p.find attempt v.id v.date partySize with
  | .error _ => none
  | .ok slots =>
    if slots = [] then none
    else
      let slots2 := filterSlotsByTableType slots tableTypes
      if slots2 = [] then none
      else
        match filterSlotsByTime slots2 times with
        | [] => none
        | bestSlot :: _ => some bestSlot

/-- One venue's handling inside `checkAndBook` (src/scheduler.ts lines
55-123): returns the events it causes and `some result` exactly when a
booking succeeded (every other path `continue`s to the next venue). -/
def processVenue (p : Provider) (attempt : Nat) (defaultPartySize : Nat)
    (globalTimes globalTables : Option (List String)) (opts : SnipeOptions)
    (v : VenueConfig) : List REvent × Option BookingResult :=
  match cycleSelect p attempt defaultPartySize globalTimes globalTables v with
  | none => ([REvent.findCall v.id attempt], none)
  | some bestSlot =>
    if opts.dryRun then
      ([REvent.findCall v.id attempt, REvent.slotFound bestSlot], none)
    else
      let result := p.book attempt bestSlot
      ([REvent.findCall v.id attempt, REvent.slotFound bestSlot, REvent.bookCall bestSlot],
       if result.success then some result else none)

/-- The venue loop of one poll cycle: venues are evaluated sequentially in
the given order, stopping at the first successful booking. -/
def runCycleGo (p : Provider) (attempt : Nat) (defaultPartySize : Nat)
    (globalTimes globalTables : Option (List String)) (opts : SnipeOptions) :
    List VenueConfig → List REvent × Option BookingResult
  | [] => ([], none)
  | v :: vs =>
    let step := processVenue p attempt defaultPartySize globalTimes globalTables opts v
    match step.2 with
    | some r => (step.1, some r)
    | none =>
      let rest := runCycleGo p attempt defaultPartySize globalTimes globalTables opts vs
      (step.1 ++ rest.1, rest.2)

/-- Terminal outcome of a snipe run.  `success` models `resolve(result)`
after a booking; `exhausted` models `resolve(null)` at the max-attempts
check (`stop()` has set the running flag false in both cases — the
`Stopped`/`Success` states); `fuelOut` is a model artifact marking that the
supplied fuel ended while the real loop would keep polling. -/
inductive SnipeOutcome where
  | success (r : BookingResult)
  | exhausted
  | fuelOut
deriving DecidableEq, Repr

/-- The polling loop of `ResyScheduler.snipe`: each iteration increments the
attempt counter, runs one cycle over all venues, resolves on the first
successful booking, and otherwise stops once `maxAttempts` is reached
(`options.maxAttempts &&` — a bound of `0` is falsy and never stops).
Returns the event trace, the final attempt counter and the outcome. -/
def snipeLoop (p : Provider) (venues : List VenueConfig) (defaultPartySize : Nat)
    (globalTimes globalTables : Option (List String)) (opts : SnipeOptions) :
    Nat → Nat → List REvent × Nat × SnipeOutcome
  | 0, count => ([], count, SnipeOutcome.fuelOut)
  | fuel + 1, count =>
    let attempt := count + 1
    let cycle := runCycleGo p attempt defaultPartySize globalTimes globalTables opts venues
    match cycle.2 with
    | some r => (cycle.1, attempt, SnipeOutcome.success r)
    | none =>
      match opts.maxAttempts with
      | some m =>
        if m ≠ 0 ∧ attempt ≥ m then (cycle.1, attempt, SnipeOutcome.exhausted)
        else
          let rest := snipeLoop p venues defaultPartySize globalTimes globalTables opts fuel attempt
          (cycle.1 ++ rest.1, rest.2)
      | none =>
        let rest := snipeLoop p venues defaultPartySize globalTimes globalTables opts fuel attempt
        (cycle.1 ++ rest.1, rest.2)

/-! ## The one-shot book command (src/index.ts lines 196-246)

Its per-venue body differs from the orchestrator's in exactly one step: when
the time filter is empty it falls back to the category-filtered list
(`const targetSlots = filtered.length > 0 ? filtered : slots`). -/

/-- One venue's handling in the `book` command.  `cliTime`, `cliTableType`
and `cliPartySize` are the `-t`, `-T` and `-p` command-line options; the
attempt number of the recorded events is `0` (there is a single pass).
Returns the events and `some result` exactly when a booking succeeded
(which in the source then exits the process — first success wins). -/
def bookVenueStep (p : Provider) (cfgDefaultPartySize : Nat)
    (cfgTimes cfgTables : Option (List String))
    (cliTime cliTableType : Option String) (cliPartySize : Option Nat)
    (dryRun : Bool) (v : VenueConfig) : List REvent × Option BookingResult :=
  let partySize := jsOrNat v.partySize (jsOrNat cliPartySize cfgDefaultPartySize)
  let preferredTime :=
    match cliTime with
    | some t => if t = "" then v.preferredTimes <|> cfgTimes else some [t]
    | none => v.preferredTimes <|> cfgTimes
  let tableTypes :=
    match cliTableType with
    | some t => if t = "" then v.preferredTableTypes <|> cfgTables else some [t]
    | none => v.preferredTableTypes <|> cfgTables
  match p.find 0 v.id v.date partySize with
  | .error _ => ([REvent.findCall v.id 0], none)
  | .ok slots =>
    if slots = [] then ([REvent.findCall v.id 0], none)
    else
      let slots2 := filterSlotsByTableType slots tableTypes
      if slots2 = [] then ([REvent.findCall v.id 0], none)
      else
        let filtered := filterSlotsByTime slots2 preferredTime
        let targetSlots := if filtered.length > 0 then filtered else slots2
        match targetSlots with
        | [] => ([REvent.findCall v.id 0], none)
        | slot :: _ =>
          if dryRun then
            ([REvent.findCall v.id 0, REvent.slotFound slot], none)
          else
            let result := p.book 0 slot
            ([REvent.findCall v.id 0, REvent.slotFound slot, REvent.bookCall slot],
             if result.success then some result else none)

/-! ## The time scheduler (`scheduleAtTime`, src/scheduler.ts lines 237-275)

Instants are epoch milliseconds.  The failure (`throw`) is the `Except.error`
case; on success the action is handed to `setTimeout` together with the
computed delay — the error case carries no action at all, so a failed call
can never fire it. -/

/-- The `PastTarget` condition of the Time Scheduler contract. -/
inductive ScheduleError where
  | pastTarget
deriving DecidableEq, Repr

/-- `scheduleAtTime(targetTime, callback)`: throws when the target is less
than one second after now, otherwise arranges the callback once after
`target - now` milliseconds. -/
def scheduleAtTime {α : Type} (targetMs nowMs : Int) (callback : α) :
    Except ScheduleError (Int × α) :=
  let msUntilExecution := targetMs - nowMs
  if msUntilExecution < 1000 then Except.error ScheduleError.pastTarget
  else Except.ok (msUntilExecution, callback)

/-! ## The booking client (`ResyClient`, src/resy-client.ts lines 72-274)

State: the cached auth token and payment-method id.  The HTTP layer is a
parameter (`HttpProvider`); an `Except.error` models a thrown request error
carrying the provider's optional response message.  Every network call is
recorded as a `CEvent`. -/

/-- One entry of `user.payment_methods` in a details response. -/
structure PaymentMethodRec where
  id : Int
  isDefault : Bool
deriving DecidableEq, Repr

/-- The parts of a `/3/details` response the client reads: the book token
and the user's payment methods. -/
structure DetailsLite where
  bookTokenValue : String
  paymentMethods : List PaymentMethodRec
deriving DecidableEq, Repr

/-- The HTTP layer under `ResyClient`: `auth` is `POST /3/auth/password`
(token and payment-method id on success), `details` is `POST /3/details`,
`book` is `POST /3/book` (the reservation id on success), taking the book
token and the payment-method id the client submits. -/
structure HttpProvider where
  auth : Except JsError (String × Int)
  details : Except JsError DetailsLite
  book : String → Option Int → Except JsError Nat

/-- In-memory client state: `authToken` and `paymentMethodId` fields. -/
structure ClientState where
  authToken : Option String
  paymentMethodId : Option Int
deriving DecidableEq, Repr

/-- Network calls made by the client. -/
inductive CEvent where
  | authCall
  | detailsCall
  | bookCall (bookToken : String) (paymentMethodId : Option Int)
deriving DecidableEq, Repr

/-- Is this event the commit (`POST /3/book`) call? -/
def CEvent.isCommitCall : CEvent → Bool
  | .bookCall _ _ => true
  | _ => false

/-- A failed `BookingResult` carrying only an error message. -/
def failResult (msg : String) : BookingResult :=
  { success := false, reservationId := none, venueName := none, date := none,
    time := none, partySize := none, error := some msg }

/-- `ResyClient.authenticate` (lines 72-97): with a cached token, succeed
without network interaction; otherwise call the provider and cache the
returned token and payment-method id.  Returns (events, state, success). -/
def authenticate (st : ClientState) (p : HttpProvider) :
    List CEvent × ClientState × Bool :=
  if st.authToken.isSome then ([], st, true)
  else
    match p.auth with
    | Except.ok (tok, pmid) =>
      ([CEvent.authCall], { authToken := some tok, paymentMethodId := some pmid }, true)
    | Except.error _ => ([CEvent.authCall], st, false)

/-- The `try` block of `ResyClient.getBookingDetails` (lines 187-218): call
`/3/details`; on a thrown request error return `null`; otherwise refresh the
payment-method id from the response (the default method if one is marked,
else the first) and return the details. -/
def getBookingDetailsCore (st : ClientState) (p : HttpProvider) :
    List CEvent × ClientState × Except JsError (Option DetailsLite) :=
  match p.details with
  | Except.error _ => ([CEvent.detailsCall], st, Except.ok none)
  | Except.ok d =>
    match d.paymentMethods with
    | [] => ([CEvent.detailsCall], st, Except.ok (some d))
    | m0 :: _ =>
      let dm := (d.paymentMethods.find? (fun m => m.isDefault)).getD m0
      ([CEvent.detailsCall], { st with paymentMethodId := some dm.id }, Except.ok (some d))

/-- `ResyClient.getBookingDetails` (lines 179-219): ensure a token first —
when authentication fails it throws (`Except.error`), otherwise runs the
`try` block above. -/
def getBookingDetails (st : ClientState) (p : HttpProvider) :
    List CEvent × ClientState × Except JsError (Option DetailsLite) :=
  if st.authToken.isSome then getBookingDetailsCore st p
  else
    let a := authenticate st p
    if a.2.2 then
      let g := getBookingDetailsCore a.2.1 p
      (a.1 ++ g.1, g.2)
    else
      (a.1, a.2.1, Except.error { message := "Failed to authenticate", providerMessage := none })

/-- `ResyClient.bookReservation` (lines 221-274): ensure a token (failure is
reported as a result, not thrown), resolve the book token via
`getBookingDetails` (`null` → failure result), then submit the commit with
the current payment-method id; any error thrown inside the `try` becomes a
failure result carrying the provider's message when available. -/
def bookReservation (st : ClientState) (p : HttpProvider) (slot : AvailableSlot) :
    List CEvent × ClientState × BookingResult :=
  let a := if st.authToken.isSome then ([], st, true) else authenticate st p
  if !a.2.2 then (a.1, a.2.1, failResult "Failed to authenticate")
  else
    match getBookingDetails a.2.1 p with
    | (es1, st1, Except.error e) => (a.1 ++ es1, st1, failResult (jsErrorText e))
    | (es1, st1, Except.ok none) => (a.1 ++ es1, st1, failResult "Failed to get booking details")
    | (es1, st1, Except.ok (some d)) =>
      match p.book d.bookTokenValue st1.paymentMethodId with
      | Except.error e =>
        (a.1 ++ es1 ++ [CEvent.bookCall d.bookTokenValue st1.paymentMethodId], st1,
         failResult (jsErrorText e))
      | Except.ok rid =>
        (a.1 ++ es1 ++ [CEvent.bookCall d.bookTokenValue st1.paymentMethodId], st1,
         { success := true, reservationId := some rid, venueName := some slot.venueName,
           date := some slot.date, time := some slot.time,
           partySize := some slot.partySize, error := none })

/-! ## Helper lemmas about the stable distance sort -/

theorem distLeB_refl (a : Option Int) : distLeB a a = true := by
  cases a <;> simp [distLeB]

theorem distLeB_total (a b : Option Int) : distLeB a b = true ∨ distLeB b a = true := by
  cases a <;> cases b <;> simp [distLeB]
  omega

theorem distLeB_trans {a b c : Option Int} (ha : a.isSome) (hb : b.isSome) (hc : c.isSome)
    (h1 : distLeB a b = true) (h2 : distLeB b c = true) : distLeB a c = true := by
  cases a <;> cases b <;> cases c <;> simp_all [distLeB]
  omega

theorem distLe15_isSome {a : Option Int} (h : distLe15 a = true) : a.isSome := by
  cases a <;> simp_all [distLe15]

theorem insertPair_perm (x : AvailableSlot × Option Int)
    (l : List (AvailableSlot × Option Int)) : (insertPair x l).Perm (x :: l) := by
  induction l with
  | nil => simp [insertPair]
  | cons y ys ih =>
    cases hb : distLeB x.2 y.2 with
    | true => simp [insertPair, hb]
    | false =>
      simp only [insertPair, hb, Bool.false_eq_true, if_false]
      exact (ih.cons y).trans (List.Perm.swap x y ys)

theorem sortPairs_perm (l : List (AvailableSlot × Option Int)) : (sortPairs l).Perm l := by
  induction l with
  | nil => simp [sortPairs]
  | cons x xs ih => exact (insertPair_perm x (sortPairs xs)).trans (ih.cons x)

theorem mem_insertPair {z x : AvailableSlot × Option Int}
    {l : List (AvailableSlot × Option Int)} (h : z ∈ insertPair x l) : z = x ∨ z ∈ l := by
  have := (insertPair_perm x l).mem_iff.mp h
  simpa using this

theorem pairwise_insertPair {x : AvailableSlot × Option Int}
    {l : List (AvailableSlot × Option Int)} (hx : x.2.isSome) (hl2 : ∀ p ∈ l, p.2.isSome)
    (hl : l.Pairwise (fun a b => distLeB a.2 b.2 = true)) :
    (insertPair x l).Pairwise (fun a b => distLeB a.2 b.2 = true) := by
  induction l with
  | nil => simp [insertPair]
  | cons y ys ih =>
    have hy : ∀ z ∈ ys, distLeB y.2 z.2 = true := (List.pairwise_cons.mp hl).1
    have hys : ys.Pairwise (fun a b => distLeB a.2 b.2 = true) := (List.pairwise_cons.mp hl).2
    have hy2 : y.2.isSome := hl2 y (List.mem_cons_self y ys)
    have hys2 : ∀ p ∈ ys, p.2.isSome := fun p hp => hl2 p (List.mem_cons_of_mem y hp)
    cases hb : distLeB x.2 y.2 with
    | true =>
      simp only [insertPair, hb, if_true]
      refine List.pairwise_cons.mpr ⟨?_, hl⟩
      intro z hz
      rcases List.mem_cons.mp hz with rfl | hz'
      · exact hb
      · exact distLeB_trans hx hy2 (hys2 z hz') hb (hy z hz')
    | false =>
      simp only [insertPair, hb, Bool.false_eq_true, if_false]
      refine List.pairwise_cons.mpr ⟨?_, ih hys2 hys⟩
      intro z hz
      rcases mem_insertPair hz with rfl | hz'
      · rcases distLeB_total z.2 y.2 with h | h
        · rw [hb] at h; exact absurd h (by simp)
        · exact h
      · exact hy z hz'

theorem pairwise_sortPairs (l : List (AvailableSlot × Option Int))
    (h : ∀ p ∈ l, p.2.isSome) :
    (sortPairs l).Pairwise (fun a b => distLeB a.2 b.2 = true) := by
  induction l with
  | nil => simp [sortPairs]
  | cons x xs ih =>
    have hx : x.2.isSome := h x (List.mem_cons_self x xs)
    have hxs : ∀ p ∈ xs, p.2.isSome := fun p hp => h p (List.mem_cons_of_mem x hp)
    have hmem : ∀ p ∈ sortPairs xs, p.2.isSome := fun p hp =>
      hxs p ((sortPairs_perm xs).mem_iff.mp hp)
    exact pairwise_insertPair hx hmem (ih hxs)

theorem filter_insertPair_eq {x : AvailableSlot × Option Int}
    (l : List (AvailableSlot × Option Int)) {d : Option Int} (hx : x.2 = d) :
    (insertPair x l).filter (fun pr => decide (pr.2 = d)) =
      x :: l.filter (fun pr => decide (pr.2 = d)) := by
  induction l with
  | nil => simp [insertPair, hx]
  | cons y ys ih =>
    cases hb : distLeB x.2 y.2 with
    | true =>
      simp only [insertPair, hb, if_true]
      simp [List.filter_cons, hx]
    | false =>
      have hyd : y.2 ≠ d := by
        intro hyd
        rw [hx, ← hyd, distLeB_refl] at hb
        exact absurd hb (by simp)
      simp only [insertPair, hb, Bool.false_eq_true, if_false]
      rw [List.filter_cons, List.filter_cons]
      simp only [decide_eq_true_eq]
      rw [if_neg hyd, if_neg hyd]
      exact ih

theorem filter_insertPair_ne {x : AvailableSlot × Option Int}
    (l : List (AvailableSlot × Option Int)) {d : Option Int} (hx : x.2 ≠ d) :
    (insertPair x l).filter (fun pr => decide (pr.2 = d)) =
      l.filter (fun pr => decide (pr.2 = d)) := by
  induction l with
  | nil => simp [insertPair, hx]
  | cons y ys ih =>
    cases hb : distLeB x.2 y.2 with
    | true => simp [insertPair, hb, hx]
    | false =>
      simp only [insertPair, hb, Bool.false_eq_true, if_false]
      rw [List.filter_cons, List.filter_cons]
      cases hyd : decide (y.2 = d) <;> simp [ih]

theorem filter_sortPairs (l : List (AvailableSlot × Option Int)) (d : Option Int) :
    (sortPairs l).filter (fun pr => decide (pr.2 = d)) =
      l.filter (fun pr => decide (pr.2 = d)) := by
  induction l with
  | nil => simp [sortPairs]
  | cons x xs ih =>
    by_cases hx : x.2 = d
    · rw [sortPairs, filter_insertPair_eq (sortPairs xs) hx, ih, List.filter_cons,
        if_pos (by simpa using hx)]
    · rw [sortPairs, filter_insertPair_ne (sortPairs xs) hx, ih, List.filter_cons,
        if_neg (by simpa using hx)]

theorem map_fst_filter_pairs (slots : List AvailableSlot) (f : AvailableSlot → Option Int)
    (q : AvailableSlot × Option Int → Bool) :
    ((slots.map (fun s => (s, f s))).filter q).map Prod.fst =
      slots.filter (fun s => q (s, f s)) := by
  induction slots with
  | nil => simp
  | cons s ss ih =>
    simp only [List.map_cons, List.filter_cons]
    cases hq : q (s, f s) <;> simp [hq, ih]

theorem mem_pairs_key {slots : List AvailableSlot} {f : AvailableSlot → Option Int}
    {q : AvailableSlot × Option Int → Bool} {p : AvailableSlot × Option Int}
    (hp : p ∈ (slots.map (fun s => (s, f s))).filter q) : p.2 = f p.1 := by
  have hm := List.mem_of_mem_filter hp
  rcases List.mem_map.mp hm with ⟨s, _, rfl⟩
  rfl

theorem map_fst_filter_key {key : AvailableSlot → Option Int}
    (L : List (AvailableSlot × Option Int)) (hK : ∀ p ∈ L, p.2 = key p.1) (d : Option Int) :
    (L.map Prod.fst).filter (fun s => decide (key s = d)) =
      (L.filter (fun pr => decide (pr.2 = d))).map Prod.fst := by
  induction L with
  | nil => simp
  | cons p ps ih =>
    have hp : p.2 = key p.1 := hK p (List.mem_cons_self p ps)
    have hps : ∀ x ∈ ps, x.2 = key x.1 := fun x hx => hK x (List.mem_cons_of_mem p hx)
    simp only [List.map_cons, List.filter_cons, hp]
    cases hq : decide (key p.1 = d) <;> simp [hq, ih hps]

/-! ## Concrete sample data shared by witnesses and counterexamples -/

/-- A concrete candidate slot with the given display time, type label and
quantity; the remaining fields are fixed sample values. -/
def sampleSlot (time ty : String) (q : Int) : AvailableSlot :=
  { venueId := 1, venueName := "Venue", date := "2026-02-14", time := time,
    configId := 7, token := "rgs-token", partySize := 2, type := ty,
    deposit := none, tableType := some ty, quantity := q }

/-! ## Claim theorems -/

/-- Claim C3: the category filter keeps exactly the candidates whose type
label is in the requested set, and passes all candidates unchanged when the
requested set is empty or absent.  (The filter itself is modelled from the
spec — its definition is not among the files under src/.) -/
theorem claim_C3 (slots : List AvailableSlot) (ts : List String) :
    filterSlotsByTableType slots none = slots
    ∧ filterSlotsByTableType slots (some []) = slots
    ∧ (ts ≠ [] →
        filterSlotsByTableType slots (some ts) =
          slots.filter (fun s => ts.contains s.type)) := by
  refine ⟨rfl, rfl, fun h => ?_⟩
  simp only [filterSlotsByTableType]
  rw [if_neg h]

/-- Witness for C3 at a concrete input: a requested set `["Table"]` filters
a `Patio` slot out. -/
theorem claim_C3_witness :
    filterSlotsByTableType [sampleSlot "5:00 PM" "Patio" 1] (some ["Table"]) =
      List.filter (fun s => (["Table"] : List String).contains s.type)
        [sampleSlot "5:00 PM" "Patio" 1] :=
  (claim_C3 [sampleSlot "5:00 PM" "Patio" 1] ["Table"]).2.2 (by decide)

/-- Claim C4: for a non-empty preferred-times list the time filter returns
exactly the candidates whose minimum absolute distance to a preferred time
is `≤ 15` minutes (a permutation of the filtered input), sorted ascending by
that distance, with ties kept in original input order (filtering the result
to any fixed distance gives the same list as filtering the input); for an
absent or empty preferred-times list the input is returned unchanged. -/
theorem claim_C4 (slots : List AvailableSlot) (prefs : List String) (hp : prefs ≠ []) :
    (filterSlotsByTime slots (some prefs)).Perm
      (slots.filter (fun s => distLe15 (slotDistance (prefs.map normalizeTime) s)))
    ∧ (filterSlotsByTime slots (some prefs)).Pairwise
        (fun a b => distLeB (slotDistance (prefs.map normalizeTime) a)
          (slotDistance (prefs.map normalizeTime) b) = true)
    ∧ (∀ d : Option Int,
        (filterSlotsByTime slots (some prefs)).filter
            (fun s => decide (slotDistance (prefs.map normalizeTime) s = d)) =
          (slots.filter (fun s => distLe15 (slotDistance (prefs.map normalizeTime) s))).filter
            (fun s => decide (slotDistance (prefs.map normalizeTime) s = d)))
    ∧ filterSlotsByTime slots none = slots
    ∧ filterSlotsByTime slots (some []) = slots := by
  have hunf : filterSlotsByTime slots (some prefs) =
      (sortPairs ((slots.map
          (fun slot => (slot, slotDistance (prefs.map normalizeTime) slot))).filter
        (fun sd => distLe15 sd.2))).map Prod.fst := by
    simp only [filterSlotsByTime]
    rw [if_neg hp]
  have hK : ∀ p ∈ sortPairs ((slots.map
      (fun slot => (slot, slotDistance (prefs.map normalizeTime) slot))).filter
        (fun sd => distLe15 sd.2)),
      p.2 = slotDistance (prefs.map normalizeTime) p.1 := fun p hp' =>
    mem_pairs_key ((sortPairs_perm _).mem_iff.mp hp')
  refine ⟨?_, ?_, ?_, rfl, rfl⟩
  · rw [hunf]
    have h1 := map_fst_filter_pairs slots (slotDistance (prefs.map normalizeTime))
      (fun sd => distLe15 sd.2)
    exact (List.Perm.map Prod.fst (sortPairs_perm _)).trans (h1 ▸ List.Perm.refl _)
  · rw [hunf, List.pairwise_map]
    have hPW := pairwise_sortPairs ((slots.map
        (fun slot => (slot, slotDistance (prefs.map normalizeTime) slot))).filter
          (fun sd => distLe15 sd.2))
      (fun p hp' => distLe15_isSome ((List.mem_filter.mp hp').2))
    exact List.Pairwise.imp_of_mem
      (fun {a b} ha hb hab => by rw [← hK a ha, ← hK b hb]; exact hab) hPW
  · intro d
    rw [hunf, map_fst_filter_key _ hK d, filter_sortPairs _ d, List.filter_filter,
      map_fst_filter_pairs slots (slotDistance (prefs.map normalizeTime))
        (fun sd => decide (sd.2 = d) && distLe15 sd.2),
      List.filter_filter]

/-- Witness for C4 at the spec §8 example: preferred times 19:00 and 19:30,
candidates at 18:50, 19:10 and 20:00 — the result is `[18:50, 19:10]`
(both at distance 10, ties kept in input order — the spec's "stable-order
equivalent"; 20:00 excluded), and the permutation property holds there. -/
theorem claim_C4_witness :
    filterSlotsByTime
        [sampleSlot "6:50 PM" "Table" 1, sampleSlot "7:10 PM" "Table" 1,
         sampleSlot "8:00 PM" "Table" 1] (some ["19:00", "19:30"]) =
      [sampleSlot "6:50 PM" "Table" 1, sampleSlot "7:10 PM" "Table" 1]
    ∧ (filterSlotsByTime
        [sampleSlot "6:50 PM" "Table" 1, sampleSlot "7:10 PM" "Table" 1,
         sampleSlot "8:00 PM" "Table" 1] (some ["19:00", "19:30"])).Perm
      (List.filter
        (fun s => distLe15 (slotDistance (["19:00", "19:30"].map normalizeTime) s))
        [sampleSlot "6:50 PM" "Table" 1, sampleSlot "7:10 PM" "Table" 1,
         sampleSlot "8:00 PM" "Table" 1]) :=
  ⟨by decide,
   (claim_C4 [sampleSlot "6:50 PM" "Table" 1, sampleSlot "7:10 PM" "Table" 1,
      sampleSlot "8:00 PM" "Table" 1] ["19:00", "19:30"] (by decide)).1⟩

/-- Claim C8: `scheduleAtTime` fails with `PastTarget` exactly when the
target is less than one second after now — and the error carries no
scheduled action, so the callback can never fire — while a target at least
one second in the future succeeds, scheduling the callback after the
computed delay. -/
theorem claim_C8 {α : Type} (targetMs nowMs : Int) (callback : α) :
    (targetMs - nowMs < 1000 →
      scheduleAtTime targetMs nowMs callback = Except.error ScheduleError.pastTarget)
    ∧ (1000 ≤ targetMs - nowMs →
      scheduleAtTime targetMs nowMs callback = Except.ok (targetMs - nowMs, callback)) := by
  constructor
  · intro h
    simp [scheduleAtTime, h]
  · intro h
    simp [scheduleAtTime, not_lt.mpr h]

/-- Witness for C8: a target 500ms in the future fails with `PastTarget`;
a target 2s in the future schedules the callback after 2000ms. -/
theorem claim_C8_witness :
    scheduleAtTime 500 0 (0 : Nat) = Except.error ScheduleError.pastTarget
    ∧ scheduleAtTime 2000 0 (0 : Nat) = Except.ok (2000, 0) :=
  ⟨(claim_C8 500 0 (0 : Nat)).1 (by decide),
   by simpa using (claim_C8 2000 0 (0 : Nat)).2 (by decide)⟩

/-! ## Helper lemmas about the orchestrator loop -/

theorem runCycleGo_append_none (p : Provider) (att dps : Nat)
    (gt gtt : Option (List String)) (opts : SnipeOptions) (l1 l2 : List VenueConfig)
    (h : (runCycleGo p att dps gt gtt opts l1).2 = none) :
    runCycleGo p att dps gt gtt opts (l1 ++ l2) =
      ((runCycleGo p att dps gt gtt opts l1).1 ++ (runCycleGo p att dps gt gtt opts l2).1,
       (runCycleGo p att dps gt gtt opts l2).2) := by
  induction l1 with
  | nil => simp [runCycleGo]
  | cons v vs ih =>
    cases hs : (processVenue p att dps gt gtt opts v).2 with
    | some r =>
      exfalso
      simp [runCycleGo, hs] at h
    | none =>
      have h' : (runCycleGo p att dps gt gtt opts vs).2 = none := by
        simpa [runCycleGo, hs] using h
      simp [runCycleGo, hs, ih h', List.append_assoc]

theorem processVenue_noSelect (p : Provider) (att dps : Nat)
    (gt gtt : Option (List String)) (opts : SnipeOptions) (v : VenueConfig)
    (h : cycleSelect p att dps gt gtt v = none) :
    processVenue p att dps gt gtt opts v = ([REvent.findCall v.id att], none) := by
  simp [processVenue, h]

theorem runCycleGo_noSelect (p : Provider) (att dps : Nat)
    (gt gtt : Option (List String)) (opts : SnipeOptions) (vs : List VenueConfig)
    (h : ∀ v ∈ vs, cycleSelect p att dps gt gtt v = none) :
    runCycleGo p att dps gt gtt opts vs =
      (vs.map (fun v => REvent.findCall v.id att), none) := by
  induction vs with
  | nil => simp [runCycleGo]
  | cons v vs ih =>
    have hv := h v (List.mem_cons_self v vs)
    have hvs : ∀ w ∈ vs, cycleSelect p att dps gt gtt w = none := fun w hw =>
      h w (List.mem_cons_of_mem v hw)
    simp [runCycleGo, processVenue_noSelect p att dps gt gtt opts v hv, ih hvs]

theorem filter_isBookCall_findCalls (venues : List VenueConfig) (att : Nat) :
    (venues.map (fun v => REvent.findCall v.id att)).filter REvent.isBookCall = [] := by
  induction venues with
  | nil => simp
  | cons v vs ih => simp [REvent.isBookCall, ih]

theorem snipeLoop_exhausts (p : Provider) (venues : List VenueConfig) (dps : Nat)
    (gt gtt : Option (List String)) (opts : SnipeOptions) (N : Nat)
    (hmax : opts.maxAttempts = some N) (hN : 1 ≤ N)
    (hsel : ∀ att v, v ∈ venues → cycleSelect p att dps gt gtt v = none) :
    ∀ fuel count, count < N → N ≤ count + fuel →
      (snipeLoop p venues dps gt gtt opts fuel count).2 = (N, SnipeOutcome.exhausted)
      ∧ (snipeLoop p venues dps gt gtt opts fuel count).1.filter REvent.isBookCall = [] := by
  intro fuel
  induction fuel with
  | zero =>
    intro count h1 h2
    omega
  | succ fuel ih =>
    intro count h1 h2
    have hcyc := runCycleGo_noSelect p (count + 1) dps gt gtt opts venues
      (fun v hv => hsel (count + 1) v hv)
    by_cases hstop : count + 1 ≥ N
    · have hc : N ≠ 0 ∧ count + 1 ≥ N := ⟨by omega, hstop⟩
      have he : count + 1 = N := by omega
      constructor
      · have hs : (snipeLoop p venues dps gt gtt opts (fuel + 1) count).2 =
            (count + 1, SnipeOutcome.exhausted) := by
          simp [snipeLoop, hcyc, hmax, hc]
        rw [hs, he]
      · simp [snipeLoop, hcyc, hmax, hc, filter_isBookCall_findCalls]
    · have hc : ¬(N ≠ 0 ∧ count + 1 ≥ N) := by omega
      have ihr := ih (count + 1) (by omega) (by omega)
      constructor
      · simp [snipeLoop, hcyc, hmax, hc]
        exact ihr.1
      · simp [snipeLoop, hcyc, hmax, hc, List.filter_append,
          filter_isBookCall_findCalls, ihr.2]

theorem processVenue_dryRun (p : Provider) (att dps : Nat)
    (gt gtt : Option (List String)) (opts : SnipeOptions) (v : VenueConfig)
    (h : opts.dryRun = true) :
    (processVenue p att dps gt gtt opts v).1.filter REvent.isBookCall = []
    ∧ (processVenue p att dps gt gtt opts v).2 = none := by
  cases hc : cycleSelect p att dps gt gtt v with
  | none => simp [processVenue, hc, REvent.isBookCall]
  | some best => simp [processVenue, hc, h, REvent.isBookCall]

theorem runCycleGo_dryRun (p : Provider) (att dps : Nat)
    (gt gtt : Option (List String)) (opts : SnipeOptions) (h : opts.dryRun = true)
    (vs : List VenueConfig) :
    (runCycleGo p att dps gt gtt opts vs).1.filter REvent.isBookCall = []
    ∧ (runCycleGo p att dps gt gtt opts vs).2 = none := by
  induction vs with
  | nil => simp [runCycleGo]
  | cons v vs ih =>
    have hp := processVenue_dryRun p att dps gt gtt opts v h
    constructor
    · simp [runCycleGo, hp.2, List.filter_append, hp.1, ih.1]
    · simp [runCycleGo, hp.2, ih.2]

/-- Claim C5: within a poll cycle the Targets are evaluated sequentially in
the caller-supplied order, and the first successful commit ends the run: if
every Target of the prefix yields nothing and Target `v` books successfully,
the cycle's trace is exactly the prefix's trace followed by `v`'s (the
Targets after `v` cause no events at all), and the whole loop — whatever
fuel remains — terminates right there with the `Success` outcome. -/
theorem claim_C5 (p : Provider) (dps : Nat) (gt gtt : Option (List String))
    (opts : SnipeOptions) (pre : List VenueConfig) (v : VenueConfig)
    (post : List VenueConfig) (r : BookingResult) (fuel count : Nat)
    (h1 : (runCycleGo p (count + 1) dps gt gtt opts pre).2 = none)
    (h2 : (processVenue p (count + 1) dps gt gtt opts v).2 = some r) :
    runCycleGo p (count + 1) dps gt gtt opts (pre ++ v :: post) =
      ((runCycleGo p (count + 1) dps gt gtt opts pre).1 ++
        (processVenue p (count + 1) dps gt gtt opts v).1, some r)
    ∧ snipeLoop p (pre ++ v :: post) dps gt gtt opts (fuel + 1) count =
      ((runCycleGo p (count + 1) dps gt gtt opts pre).1 ++
        (processVenue p (count + 1) dps gt gtt opts v).1, count + 1,
       SnipeOutcome.success r) := by
  have hcyc : runCycleGo p (count + 1) dps gt gtt opts (pre ++ v :: post) =
      ((runCycleGo p (count + 1) dps gt gtt opts pre).1 ++
        (processVenue p (count + 1) dps gt gtt opts v).1, some r) := by
    rw [runCycleGo_append_none p (count + 1) dps gt gtt opts pre (v :: post) h1]
    simp [runCycleGo, h2]
  exact ⟨hcyc, by simp [snipeLoop, hcyc]⟩

/-- Claim C6: with a max-attempts bound `N ≥ 1`, enough fuel and a provider
from which no Target ever selects a candidate, the loop performs exactly `N`
cycles (the counter ends at `N`), makes zero commit calls, and terminates
with the non-error `exhausted` outcome (the `resolve(null)` / `Stopped`
path). -/
theorem claim_C6 (p : Provider) (venues : List VenueConfig) (dps : Nat)
    (gt gtt : Option (List String)) (opts : SnipeOptions) (N fuel : Nat)
    (hmax : opts.maxAttempts = some N) (hN : 1 ≤ N) (hfuel : N ≤ fuel)
    (hsel : ∀ att v, v ∈ venues → cycleSelect p att dps gt gtt v = none) :
    (snipeLoop p venues dps gt gtt opts fuel 0).2 = (N, SnipeOutcome.exhausted)
    ∧ (snipeLoop p venues dps gt gtt opts fuel 0).1.filter REvent.isBookCall = [] :=
  snipeLoop_exhausts p venues dps gt gtt opts N hmax hN hsel fuel 0 (by omega) (by omega)

/-- Claim C7: in dry-run mode the commit capability is never invoked — the
trace of the entire run, from any starting point and for any fuel, contains
no book call, even when candidates are found and reported. -/
theorem claim_C7 (p : Provider) (venues : List VenueConfig) (dps : Nat)
    (gt gtt : Option (List String)) (opts : SnipeOptions)
    (hdry : opts.dryRun = true) (fuel count : Nat) :
    (snipeLoop p venues dps gt gtt opts fuel count).1.filter REvent.isBookCall = [] := by
  induction fuel generalizing count with
  | zero => simp [snipeLoop]
  | succ fuel ih =>
    obtain ⟨hfil, hnone⟩ := runCycleGo_dryRun p (count + 1) dps gt gtt opts hdry venues
    cases hm : opts.maxAttempts with
    | none => simp [snipeLoop, hnone, hm, List.filter_append, hfil, ih]
    | some m =>
      by_cases hstop : m ≠ 0 ∧ count + 1 ≥ m
      · simp [snipeLoop, hnone, hm, hstop, hfil]
      · simp [snipeLoop, hnone, hm, hstop, List.filter_append, hfil, ih]

/-! ## Concrete fixtures for the orchestrator witnesses -/

/-- A successful booking result as `bookReservation` would produce it. -/
def okBooking : BookingResult :=
  { success := true, reservationId := some 42, venueName := some "Venue",
    date := some "2026-02-14", time := some "7:00 PM", partySize := some 2,
    error := none }

/-- A provider that always offers one matching 7:00 PM table and accepts
every booking. -/
def matchProvider : Provider :=
  { find := fun _ _ _ _ => Except.ok [sampleSlot "7:00 PM" "Table" 1],
    book := fun _ _ => okBooking }

/-- A provider that never returns any candidate. -/
def emptyProvider : Provider :=
  { find := fun _ _ _ _ => Except.ok [],
    book := fun _ _ => okBooking }

/-- A Target preferring 19:00 (which the 7:00 PM slot matches exactly). -/
def sampleVenue : VenueConfig :=
  { id := 1, name := "Venue", date := "2026-02-14", partySize := none,
    preferredTimes := some ["19:00"], preferredTableTypes := none }

/-- A second Target, used to show later Targets are skipped. -/
def sampleVenue2 : VenueConfig :=
  { id := 2, name := "Backup", date := "2026-02-14", partySize := none,
    preferredTimes := some ["19:00"], preferredTableTypes := none }

/-- Snipe options with the given max-attempts bound and dry-run flag. -/
def snipeOpts (ma : Option Nat) (dr : Bool) : SnipeOptions :=
  { intervalSeconds := 30, maxAttempts := ma, dryRun := dr }

/-- Witness for C5: with an empty prefix, a matching first Target and a
second Target behind it, the run ends at attempt 1 with `Success` and the
second Target is never touched. -/
theorem claim_C5_witness :
    snipeLoop matchProvider [sampleVenue, sampleVenue2] 2 none none
        (snipeOpts none false) 4 0 =
      ((runCycleGo matchProvider 1 2 none none (snipeOpts none false) []).1 ++
        (processVenue matchProvider 1 2 none none (snipeOpts none false) sampleVenue).1,
       1, SnipeOutcome.success okBooking) :=
  (claim_C5 matchProvider 2 none none (snipeOpts none false) [] sampleVenue
    [sampleVenue2] okBooking 3 0 (by decide) (by decide)).2

/-- Witness for C6: `maxAttempts = 3` against the empty provider gives
exactly 3 attempts, the `exhausted` outcome and zero commit calls. -/
theorem claim_C6_witness :
    (snipeLoop emptyProvider [sampleVenue] 2 none none
        (snipeOpts (some 3) false) 5 0).2 = (3, SnipeOutcome.exhausted)
    ∧ (snipeLoop emptyProvider [sampleVenue] 2 none none
        (snipeOpts (some 3) false) 5 0).1.filter REvent.isBookCall = [] :=
  claim_C6 emptyProvider [sampleVenue] 2 none none (snipeOpts (some 3) false) 3 5
    rfl (by decide) (by decide) (fun att v hv => rfl)

/-- Witness for C7: a dry run against the matching provider reports the
candidate (the `slotFound` event is in the trace) yet makes no commit call. -/
theorem claim_C7_witness :
    (snipeLoop matchProvider [sampleVenue] 2 none none
        (snipeOpts (some 2) true) 3 0).1.filter REvent.isBookCall = []
    ∧ REvent.slotFound (sampleSlot "7:00 PM" "Table" 1) ∈
        (snipeLoop matchProvider [sampleVenue] 2 none none
          (snipeOpts (some 2) true) 3 0).1 :=
  ⟨claim_C7 matchProvider [sampleVenue] 2 none none (snipeOpts (some 2) true) rfl 3 0,
   by decide⟩

/-! ## Rendered time forms for the normalization claim

`slotDisplayTime` is the repo's own 12-hour rendering (src/resy-client.ts
`parseSlot`, lines 159-162: `hours % 12 || 12`, zero-padded minutes, then
`AM`/`PM`); `render24` is the 24-hour `"H:MM"` form the configuration's
preferred times use (config.example / README, e.g. `"19:00"`). -/

/-- The decimal rendering of `n < 100` (JavaScript `${n}`). -/
def natChars (n : Nat) : List Char :=
  if n < 10 then [Nat.digitChar n] else [Nat.digitChar (n / 10), Nat.digitChar (n % 10)]

/-- `n.toString().padStart(2, '0')` for `n < 100`. -/
def pad2 (n : Nat) : List Char :=
  if n < 10 then ['0', Nat.digitChar n] else [Nat.digitChar (n / 10), Nat.digitChar (n % 10)]

/-- The display time `parseSlot` builds: `"7:05 PM"` style. -/
def slotDisplayTime (hours minutes : Nat) : String :=
  let period := if hours ≥ 12 then ['P', 'M'] else ['A', 'M']
  let displayHours := if hours % 12 = 0 then 12 else hours % 12
  String.mk (natChars displayHours ++ ':' :: pad2 minutes ++ ' ' :: period)

/-- The 24-hour `"19:05"` style time string used for preferred times. -/
def render24 (hours minutes : Nat) : String :=
  String.mk (natChars hours ++ ':' :: pad2 minutes)

set_option maxHeartbeats 2000000 in
/-- Claim C9: normalization maps both the 24-hour form and the repo's
12-hour display form of every valid wall-clock time to the same
minutes-since-midnight integer `h * 60 + m`. -/
theorem claim_C9 : ∀ h : Nat, h < 24 → ∀ m : Nat, m < 60 →
    normalizeTime (render24 h m) = some ((h : Int) * 60 + (m : Int))
    ∧ normalizeTime (slotDisplayTime h m) = some ((h : Int) * 60 + (m : Int)) := by
  decide

/-- Witness for C9 at the claim's own instance: `"19:05"` and `"7:05 PM"`
both normalize to 1145. -/
theorem claim_C9_witness :
    normalizeTime "19:05" = some 1145 ∧ normalizeTime "7:05 PM" = some 1145 := by
  have h := claim_C9 19 (by decide) 5 (by decide)
  have e24 : render24 19 5 = "19:05" := by decide
  have e12 : slotDisplayTime 19 5 = "7:05 PM" := by decide
  rw [e24, e12] at h
  exact ⟨h.1, h.2⟩

/-! ## Fixtures for the fallback and quantity claims -/

/-- A provider whose only candidate is an 8:00 PM table (an hour away from
the 19:00 preference) and which would accept any booking. -/
def cxProvider : Provider :=
  { find := fun _ _ _ _ => Except.ok [sampleSlot "8:00 PM" "Table" 1],
    book := fun _ _ => okBooking }

/-- A Target with no per-target preferences (the global ones apply). -/
def cxVenue : VenueConfig :=
  { id := 1, name := "Venue", date := "2026-02-14", partySize := none,
    preferredTimes := none, preferredTableTypes := none }

/-- `jsOrNat` of an absent value is the fallback. -/
theorem jsOrNat_none (b : Nat) : jsOrNat none b = b := rfl

/-- Counterexample to claim C1: in the snipe cycle, with a non-empty
category-filtered candidate list (the 8:00 PM slot) whose time filter
yields no survivor, the orchestrator does **not** fall back: the Target is
skipped — the trace holds only the find call, no candidate is selected and
nothing is booked — even though the provider would have accepted a booking. -/
theorem claim_C1_counterexample :
    filterSlotsByTableType [sampleSlot "8:00 PM" "Table" 1] none =
      [sampleSlot "8:00 PM" "Table" 1]
    ∧ filterSlotsByTime [sampleSlot "8:00 PM" "Table" 1] (some ["19:00"]) = []
    ∧ processVenue cxProvider 1 2 (some ["19:00"]) none (snipeOpts none false) cxVenue =
        ([REvent.findCall 1 1], none) :=
  ⟨by decide, by decide, by decide⟩

/-- Claim C1 as amended: the fallback to the category-filtered list exists
only in the one-shot `book` (and `check`) command, not in the Booking
Orchestrator's poll cycle.  (a) In the snipe cycle an empty time-filter
result on a non-empty category-filtered list skips the Target: only the
find call happens, nothing is selected or booked.  (b) In the `book`
command's per-venue step the same situation falls back to the
category-filtered list and proceeds to select and book its first element. -/
theorem claim_C1_amended :
    (∀ (p : Provider) (att dps : Nat) (gt gtt : Option (List String))
       (opts : SnipeOptions) (v : VenueConfig) (slots : List AvailableSlot)
       (s2 : AvailableSlot) (rest : List AvailableSlot),
       p.find att v.id v.date (jsOrNat v.partySize dps) = Except.ok slots →
       slots ≠ [] →
       filterSlotsByTableType slots (v.preferredTableTypes <|> gtt) = s2 :: rest →
       filterSlotsByTime (s2 :: rest) (v.preferredTimes <|> gt) = [] →
       processVenue p att dps gt gtt opts v = ([REvent.findCall v.id att], none))
    ∧ (∀ (p : Provider) (dps : Nat) (cfgTimes cfgTables : Option (List String))
         (v : VenueConfig) (slots : List AvailableSlot) (s2 : AvailableSlot)
         (rest : List AvailableSlot),
       p.find 0 v.id v.date (jsOrNat v.partySize dps) = Except.ok slots →
       slots ≠ [] →
       filterSlotsByTableType slots (v.preferredTableTypes <|> cfgTables) = s2 :: rest →
       filterSlotsByTime (s2 :: rest) (v.preferredTimes <|> cfgTimes) = [] →
       bookVenueStep p dps cfgTimes cfgTables none none none false v =
         ([REvent.findCall v.id 0, REvent.slotFound s2, REvent.bookCall s2],
          if (p.book 0 s2).success then some (p.book 0 s2) else none)) := by
  constructor
  · intro p att dps gt gtt opts v slots s2 rest hfind hne htab htime
    have hsel : cycleSelect p att dps gt gtt v = none := by
      simp only [cycleSelect, hfind]
      rw [if_neg hne, htab]
      simp [htime]
    simp [processVenue, hsel]
  · intro p dps cfgTimes cfgTables v slots s2 rest hfind hne htab htime
    simp only [bookVenueStep, jsOrNat_none, hfind]
    rw [if_neg hne, htab]
    simp [htime]

/-- Witness for the amended C1 at the counterexample's input: the snipe
cycle skips, while the book command books the 8:00 PM slot. -/
theorem claim_C1_amended_witness :
    processVenue cxProvider 1 2 (some ["19:00"]) none (snipeOpts none false) cxVenue =
      ([REvent.findCall 1 1], none)
    ∧ bookVenueStep cxProvider 2 (some ["19:00"]) none none none none false cxVenue =
        ([REvent.findCall 1 0, REvent.slotFound (sampleSlot "8:00 PM" "Table" 1),
          REvent.bookCall (sampleSlot "8:00 PM" "Table" 1)], some okBooking) := by
  constructor
  · exact claim_C1_amended.1 cxProvider 1 2 (some ["19:00"]) none (snipeOpts none false)
      cxVenue [sampleSlot "8:00 PM" "Table" 1] (sampleSlot "8:00 PM" "Table" 1) []
      rfl (by decide) (by decide) (by decide)
  · have h := claim_C1_amended.2 cxProvider 2 (some ["19:00"]) none cxVenue
      [sampleSlot "8:00 PM" "Table" 1] (sampleSlot "8:00 PM" "Table" 1) []
      rfl (by decide) (by decide) (by decide)
    simpa using h

/-! ## Quantity is never inspected: map-commutation helpers -/

theorem slotDistance_eq_of_time (np : List (Option Int)) (g : AvailableSlot → AvailableSlot)
    (hg : ∀ s, (g s).time = s.time) (s : AvailableSlot) :
    slotDistance np (g s) = slotDistance np s := by
  simp [slotDistance, hg]

theorem filterSlotsByTableType_map (g : AvailableSlot → AvailableSlot)
    (hg : ∀ s, (g s).type = s.type) (slots : List AvailableSlot)
    (tt : Option (List String)) :
    filterSlotsByTableType (slots.map g) tt = (filterSlotsByTableType slots tt).map g := by
  cases tt with
  | none => rfl
  | some ts =>
    by_cases h : ts = []
    · simp [filterSlotsByTableType, h]
    · simp only [filterSlotsByTableType, if_neg h]
      rw [List.filter_map]
      simp only [Function.comp_def, hg]

theorem insertPair_map (g : AvailableSlot → AvailableSlot) (x : AvailableSlot × Option Int)
    (l : List (AvailableSlot × Option Int)) :
    insertPair (g x.1, x.2) (l.map (fun pr => (g pr.1, pr.2))) =
      (insertPair x l).map (fun pr => (g pr.1, pr.2)) := by
  induction l with
  | nil => rfl
  | cons y ys ih =>
    simp only [List.map_cons, insertPair]
    cases hb : distLeB x.2 y.2 <;> simp [hb, ih]

theorem sortPairs_map (g : AvailableSlot → AvailableSlot)
    (l : List (AvailableSlot × Option Int)) :
    sortPairs (l.map (fun pr => (g pr.1, pr.2))) =
      (sortPairs l).map (fun pr => (g pr.1, pr.2)) := by
  induction l with
  | nil => rfl
  | cons x xs ih => simp only [List.map_cons, sortPairs, ih, insertPair_map]

theorem filterSlotsByTime_map (g : AvailableSlot → AvailableSlot)
    (hg : ∀ s, (g s).time = s.time) (slots : List AvailableSlot)
    (t : Option (List String)) :
    filterSlotsByTime (slots.map g) t = (filterSlotsByTime slots t).map g := by
  cases t with
  | none => rfl
  | some prefs =>
    by_cases h : prefs = []
    · simp [filterSlotsByTime, h]
    · simp only [filterSlotsByTime, if_neg h]
      rw [List.map_map]
      have e1 : ((fun slot => (slot, slotDistance (prefs.map normalizeTime) slot)) ∘ g)
          = ((fun pr : AvailableSlot × Option Int => (g pr.1, pr.2)) ∘
             (fun slot => (slot, slotDistance (prefs.map normalizeTime) slot))) := by
        funext s
        simp [Function.comp_def, slotDistance_eq_of_time (prefs.map normalizeTime) g hg]
      rw [e1, ← List.map_map, List.filter_map]
      have e2 : ((fun sd : AvailableSlot × Option Int => distLe15 sd.2) ∘
          (fun pr : AvailableSlot × Option Int => (g pr.1, pr.2))) =
          fun sd : AvailableSlot × Option Int => distLe15 sd.2 := by
        funext pr
        rfl
      rw [e2, sortPairs_map, List.map_map]
      have e3 : (Prod.fst ∘ fun pr : AvailableSlot × Option Int => (g pr.1, pr.2)) =
          g ∘ Prod.fst := by
        funext pr
        rfl
      rw [e3, ← List.map_map]

/-- A provider whose only candidate is a perfectly matching slot with
`quantity = 0`, and which accepts any booking. -/
def q0Provider : Provider :=
  { find := fun _ _ _ _ => Except.ok [sampleSlot "7:00 PM" "Table" 0],
    book := fun _ _ => okBooking }

/-- Counterexample to claim C2: a candidate slot with `quantity = 0` is
selected as the best slot and passed to the commit operation — nothing in
the pipeline filters on quantity. -/
theorem claim_C2_counterexample :
    (sampleSlot "7:00 PM" "Table" 0).quantity ≤ 0
    ∧ processVenue q0Provider 1 2 none none (snipeOpts none false) sampleVenue =
        ([REvent.findCall 1 1, REvent.slotFound (sampleSlot "7:00 PM" "Table" 0),
          REvent.bookCall (sampleSlot "7:00 PM" "Table" 0)], some okBooking) :=
  ⟨by decide, by decide⟩

/-- Claim C2 as amended: the selection pipeline never inspects `quantity` —
rewriting every candidate's quantity (e.g. to zero or a negative value)
commutes with the category filter, the time filter and the selection of the
top-ranked slot — so slots with `quantity ≤ 0` are not excluded and can be
selected and booked (see the counterexample). -/
theorem claim_C2_amended (q : Int) (slots : List AvailableSlot)
    (tt t : Option (List String)) :
    filterSlotsByTableType (slots.map (fun s => { s with quantity := q })) tt =
      (filterSlotsByTableType slots tt).map (fun s => { s with quantity := q })
    ∧ filterSlotsByTime (slots.map (fun s => { s with quantity := q })) t =
      (filterSlotsByTime slots t).map (fun s => { s with quantity := q })
    ∧ (filterSlotsByTime (filterSlotsByTableType
          (slots.map (fun s => { s with quantity := q })) tt) t).head? =
        ((filterSlotsByTime (filterSlotsByTableType slots tt) t).head?).map
          (fun s => { s with quantity := q }) := by
  have hgt : ∀ s : AvailableSlot, ({ s with quantity := q } : AvailableSlot).type = s.type :=
    fun s => rfl
  have hgm : ∀ s : AvailableSlot, ({ s with quantity := q } : AvailableSlot).time = s.time :=
    fun s => rfl
  refine ⟨filterSlotsByTableType_map _ hgt slots tt, filterSlotsByTime_map _ hgm slots t, ?_⟩
  rw [filterSlotsByTableType_map _ hgt slots tt, filterSlotsByTime_map _ hgm _ t,
    List.head?_map]

/-! ## Helper lemmas about the booking client -/

theorem getBookingDetailsCore_fst (st : ClientState) (p : HttpProvider) :
    (getBookingDetailsCore st p).1 = [CEvent.detailsCall] := by
  cases hdet : p.details with
  | error e => simp [getBookingDetailsCore, hdet]
  | ok d =>
    cases hpm : d.paymentMethods with
    | nil => simp [getBookingDetailsCore, hdet, hpm]
    | cons m0 ms => simp [getBookingDetailsCore, hdet, hpm]

theorem getBookingDetailsCore_res (st : ClientState) (p : HttpProvider) :
    (getBookingDetailsCore st p).2.2 =
      (match p.details with
       | Except.error _ => Except.ok none
       | Except.ok d => Except.ok (some d)) := by
  cases hdet : p.details with
  | error e => simp [getBookingDetailsCore, hdet]
  | ok d =>
    cases hpm : d.paymentMethods with
    | nil => simp [getBookingDetailsCore, hdet, hpm]
    | cons m0 ms => simp [getBookingDetailsCore, hdet, hpm]

/-- Claim C10: `bookReservation` is total in its error handling — whatever
the provider does (auth failure, details error or `null`, commit rejection)
it returns a `BookingResult` (exceptions are internal `Except` values the
embedding shows are always caught).  The result has `success = true` with a
confirmation `reservationId` exactly when the (at most one) commit call
succeeded; otherwise `success = false` with an error message — the
provider's message (via `jsErrorText`) for a rejected commit, a generic
description for the auth and details failures. -/
theorem claim_C10 (st : ClientState) (p : HttpProvider) (slot : AvailableSlot) :
    ((bookReservation st p slot).2.2.success = true ↔
      ∃ tok pm rid, CEvent.bookCall tok pm ∈ (bookReservation st p slot).1
        ∧ p.book tok pm = Except.ok rid
        ∧ (bookReservation st p slot).2.2.reservationId = some rid)
    ∧ ((bookReservation st p slot).2.2.success = false →
        ∃ msg, (bookReservation st p slot).2.2.error = some msg
          ∧ (msg = "Failed to authenticate" ∨ msg = "Failed to get booking details"
             ∨ ∃ tok pm e, CEvent.bookCall tok pm ∈ (bookReservation st p slot).1
                 ∧ p.book tok pm = Except.error e ∧ msg = jsErrorText e))
    ∧ ((bookReservation st p slot).1.filter CEvent.isCommitCall).length ≤ 1 := by
  rcases hA : (if st.authToken.isSome then (([] : List CEvent), st, true)
    else authenticate st p) with ⟨es0, st0, ok⟩
  have hes0 : (es0.filter CEvent.isCommitCall = [])
      ∧ ∀ tok pm, CEvent.bookCall tok pm ∉ es0 := by
    by_cases hT : st.authToken.isSome
    · rw [if_pos hT] at hA
      have h1 : es0 = [] := by
        have := congrArg Prod.fst hA
        simpa using this.symm
      subst h1
      exact ⟨rfl, by simp⟩
    · rw [if_neg hT] at hA
      have h1 : es0 = [] ∨ es0 = [CEvent.authCall] := by
        have hfst : (authenticate st p).1 = es0 := by rw [hA]
        rw [authenticate, if_neg hT] at hfst
        cases hauth : p.auth with
        | ok pr => rw [hauth] at hfst; right; exact hfst.symm
        | error e => rw [hauth] at hfst; right; exact hfst.symm
      rcases h1 with rfl | rfl
      · exact ⟨rfl, by simp⟩
      · exact ⟨by simp [CEvent.isCommitCall], by simp⟩
  have hst0 : ok = true → st0.authToken.isSome := by
    intro hok
    by_cases hT : st.authToken.isSome
    · rw [if_pos hT] at hA
      have : st = st0 := by
        have := congrArg (fun x => x.2.1) hA
        simpa using this
      rw [← this]
      exact hT
    · rw [if_neg hT] at hA
      rw [authenticate, if_neg hT] at hA
      cases hauth : p.auth with
      | ok pr =>
        rw [hauth] at hA
        have : ({ authToken := some pr.1, paymentMethodId := some pr.2 } : ClientState)
            = st0 := by
          have := congrArg (fun x => x.2.1) hA
          simpa using this
        rw [← this]
        rfl
      | error e =>
        rw [hauth] at hA
        exfalso
        have := congrArg (fun x => x.2.2) hA
        simp [hok] at this
  cases ok with
  | false =>
    have hb : bookReservation st p slot = (es0, st0, failResult "Failed to authenticate") := by
      rw [bookReservation, hA]
      simp
    rw [hb]
    refine ⟨?_, ?_, ?_⟩
    · refine iff_of_false (by simp [failResult]) ?_
      rintro ⟨tok, pm, rid, hmem, -, -⟩
      exact hes0.2 tok pm hmem
    · intro _
      exact ⟨"Failed to authenticate", by simp [failResult], Or.inl rfl⟩
    · simp [hes0.1]
  | true =>
    have hsome := hst0 rfl
    have hgd : getBookingDetails st0 p = getBookingDetailsCore st0 p := by
      rw [getBookingDetails, if_pos hsome]
    rcases hcore : getBookingDetailsCore st0 p with ⟨es1, st1, res⟩
    have hes1 : es1 = [CEvent.detailsCall] := by
      have := getBookingDetailsCore_fst st0 p
      rw [hcore] at this
      exact this
    subst hes1
    cases hdet : p.details with
    | error e0 =>
      have hres : res = Except.ok none := by
        have := getBookingDetailsCore_res st0 p
        rw [hcore, hdet] at this
        exact this
      subst hres
      have hb : bookReservation st p slot =
          (es0 ++ [CEvent.detailsCall], st1, failResult "Failed to get booking details") := by
        rw [bookReservation, hA]
        simp [hgd, hcore]
      rw [hb]
      refine ⟨?_, ?_, ?_⟩
      · refine iff_of_false (by simp [failResult]) ?_
        rintro ⟨tok, pm, rid, hmem, -, -⟩
        rcases List.mem_append.mp hmem with h | h
        · exact hes0.2 tok pm h
        · simp at h
      · intro _
        exact ⟨"Failed to get booking details", by simp [failResult], Or.inr (Or.inl rfl)⟩
      · simp [List.filter_append, hes0.1, CEvent.isCommitCall]
    | ok d =>
      have hres : res = Except.ok (some d) := by
        have := getBookingDetailsCore_res st0 p
        rw [hcore, hdet] at this
        exact this
      subst hres
      cases hbook : p.book d.bookTokenValue st1.paymentMethodId with
      | error e =>
        have hb : bookReservation st p slot =
            (es0 ++ [CEvent.detailsCall] ++
              [CEvent.bookCall d.bookTokenValue st1.paymentMethodId], st1,
             failResult (jsErrorText e)) := by
          rw [bookReservation, hA]
          simp [hgd, hcore, hbook]
        rw [hb]
        refine ⟨?_, ?_, ?_⟩
        · refine iff_of_false (by simp [failResult]) ?_
          rintro ⟨tok, pm, rid, hmem, hbo, -⟩
          rcases List.mem_append.mp hmem with h | h
          · rcases List.mem_append.mp h with h' | h'
            · exact hes0.2 tok pm h'
            · simp at h'
          · simp at h
            rw [h.1, h.2] at hbo
            rw [hbook] at hbo
            exact absurd hbo (by simp)
        · intro _
          refine ⟨jsErrorText e, by simp [failResult], Or.inr (Or.inr ?_)⟩
          exact ⟨d.bookTokenValue, st1.paymentMethodId, e, by simp, hbook, rfl⟩
        · simp [List.filter_append, hes0.1, CEvent.isCommitCall]
      | ok rid =>
        have hb : bookReservation st p slot =
            (es0 ++ [CEvent.detailsCall] ++
              [CEvent.bookCall d.bookTokenValue st1.paymentMethodId], st1,
             { success := true, reservationId := some rid,
               venueName := some slot.venueName, date := some slot.date,
               time := some slot.time, partySize := some slot.partySize,
               error := none }) := by
          rw [bookReservation, hA]
          simp [hgd, hcore, hbook]
        rw [hb]
        refine ⟨?_, ?_, ?_⟩
        · refine iff_of_true rfl ?_
          exact ⟨d.bookTokenValue, st1.paymentMethodId, rid, by simp, hbook, rfl⟩
        · intro h
          simp at h
        · simp [List.filter_append, hes0.1, CEvent.isCommitCall]

/-- An HTTP layer that authenticates, returns details and accepts the
commit with reservation id 42. -/
def okHttp : HttpProvider :=
  { auth := Except.ok ("auth-token", 1),
    details := Except.ok { bookTokenValue := "book-token", paymentMethods := [] },
    book := fun _ _ => Except.ok 42 }

/-- An HTTP layer identical to `okHttp` except that the commit is rejected
with a provider message. -/
def rejectHttp : HttpProvider :=
  { auth := Except.ok ("auth-token", 1),
    details := Except.ok { bookTokenValue := "book-token", paymentMethods := [] },
    book := fun _ _ =>
      Except.error { message := "Request failed",
                     providerMessage := some "Slot no longer available" } }

/-- Witness for C10: with an accepting provider the result is a success
whose confirmation id comes from the one successful commit call; with a
rejecting provider the result carries the provider's message. -/
theorem claim_C10_witness :
    (∃ tok pm rid,
      CEvent.bookCall tok pm ∈
        (bookReservation { authToken := none, paymentMethodId := none } okHttp
          (sampleSlot "7:00 PM" "Table" 1)).1
      ∧ okHttp.book tok pm = Except.ok rid
      ∧ (bookReservation { authToken := none, paymentMethodId := none } okHttp
          (sampleSlot "7:00 PM" "Table" 1)).2.2.reservationId = some rid)
    ∧ (∃ msg,
        (bookReservation { authToken := none, paymentMethodId := none } rejectHttp
          (sampleSlot "7:00 PM" "Table" 1)).2.2.error = some msg
        ∧ (msg = "Failed to authenticate" ∨ msg = "Failed to get booking details"
           ∨ ∃ tok pm e,
               CEvent.bookCall tok pm ∈
                 (bookReservation { authToken := none, paymentMethodId := none } rejectHttp
                   (sampleSlot "7:00 PM" "Table" 1)).1
               ∧ rejectHttp.book tok pm = Except.error e ∧ msg = jsErrorText e)) :=
  ⟨(claim_C10 { authToken := none, paymentMethodId := none } okHttp
      (sampleSlot "7:00 PM" "Table" 1)).1.mp (by decide),
   (claim_C10 { authToken := none, paymentMethodId := none } rejectHttp
      (sampleSlot "7:00 PM" "Table" 1)).2.1 (by decide)⟩
